import Mathlib

/-!
# groupdeploy: rolling deployment of a machine image to a managed instance group

A shallow embedding of `main.go`.  Provider calls (`...Do()`) are replaced by
their scripted responses, passed as arguments; `log.Panicf` becomes an `abort`
outcome; a polling loop that would wait forever on the live provider is a loop
over a finite script and yields `none` when the script is used up.

A Go `string` is a sequence of bytes.  It is modelled as a list of symbols
(`List Char`), one list element per byte.  Every function below only compares
symbols for equality, so the results hold for byte strings as a special case.
-/

set_option autoImplicit false
set_option maxRecDepth 100000

namespace GroupDeploy

/-- A Go string: a finite sequence of byte symbols. -/
abbrev GoString := List Char

/-! ## The Go standard library functions used by `main.go` -/

namespace strings

/-- Go `strings.Index(s, substr)`: the index of the first occurrence of
`substr` in `s`, or `-1` when there is none. -/
def Index : GoString → GoString → Int
  | [], substr => if substr = [] then 0 else -1
  | c :: cs, substr =>
    if substr.isPrefixOf (c :: cs) then 0
    else
      let r := Index cs substr
      if r < 0 then -1 else r + 1

/-- Go `strings.LastIndex(s, substr)`: the index of the last occurrence of
`substr` in `s`, or `-1` when there is none. -/
def LastIndex : GoString → GoString → Int
  | [], substr => if substr = [] then 0 else -1
  | c :: cs, substr =>
    let r := LastIndex cs substr
    if 0 ≤ r then r + 1
    else if substr.isPrefixOf (c :: cs) then 0
    else -1

/-- Go `strings.Replace(s, old, new, 1)`: `s` with the first occurrence of
`old` replaced by `new`.  As in the library, `s` is returned as it is when
`old == new` or when `old` does not occur; an empty `old` matches at the
beginning of the string. -/
def Replace1 (s old new : GoString) : GoString :=
  if old = new then s
  else
    let j := Index s old
    if j < 0 then s
    else s.take j.toNat ++ new ++ s.drop (j.toNat + old.length)

end strings

/-! ## Hash Extractor -/

/-- Source: `func GetHash(name string) string`. -/
def GetHash (name : GoString) : GoString :=
  let i := strings.LastIndex name ['-']
  if i < 0 then [] else name.drop (i + 1).toNat

/-! ## Errors and aborts -/

/-- One entry of an operation's error list (`compute.OperationErrorErrors`). -/
structure OperationErrorErrors where
  Code : GoString
  Message : GoString
deriving DecidableEq

/-- The error payload of an operation (`compute.OperationError`). -/
structure OperationError where
  Errors : List OperationErrorErrors
deriving DecidableEq

/-- A non-nil Go `error` value as the program can tell them apart:
a `*googleapi.Error` with its HTTP status code, the program's own `*opError`,
or any other error. -/
inductive Err where
  | googleapi (Code : Nat)
  | opError (oe : OperationError)
  | other (msg : GoString)
deriving DecidableEq

/-- Source: `ge, ok := err.(*googleapi.Error); ok && ge.Code == code`. -/
def Err.hasCode : Err → Nat → Bool
  | .googleapi c, code => c == code
  | .opError _, _ => false
  | .other _, _ => false

/-- Value of `http.StatusConflict`. -/
def StatusConflict : Nat := 409

/-- Value of `http.StatusNotFound`. -/
def StatusNotFound : Nat := 404

/-- The `log.Panicf` call that ended the run, with the error it reports. -/
inductive Abort where
  | insertTemplate (e : Err)
  | insertTemplateOp (e : Err)
  | listManaged (e : Err)
  | recreate (e : Err)
  | recreateOp (e : Err)
  | relistManaged (e : Err)
  | listZones (e : Err)
  | getZoneOfGroup (e : Err)
  | computeNotEnabled
  | groupNotFound
deriving DecidableEq

/-! ## Operation Waiter -/

/-- The fields of `compute.Operation` read by `WaitOp`; `Error` is a pointer
and may be nil. -/
structure Operation where
  Name : GoString
  Zone : GoString
  Region : GoString
  Status : GoString
  Error : Option OperationError
  Progress : Int
deriving DecidableEq

/-- A status fetch issued by `WaitOp`, by the accessor it goes through. -/
inductive OpGet where
  | zoneOp (zone name : GoString)
  | regionOp (region name : GoString)
  | globalOp (name : GoString)
deriving DecidableEq

/-- The `switch` of `WaitOp` choosing the accessor for the next fetch. -/
def WaitOp.request (op : Operation) : OpGet :=
  if op.Zone ≠ [] then .zoneOp op.Zone op.Name
  else if op.Region ≠ [] then .regionOp op.Region op.Name
  else .globalOp op.Name

/-- The code of `WaitOp` after its loop: an `*opError` when the operation
carries a non-empty error list, `nil` otherwise. -/
def WaitOp.finish (op : Operation) : Option Err :=
  match op.Error with
  | none => none
  | some oe => if oe.Errors.length ≠ 0 then some (.opError oe) else none

/-- Source: `func WaitOp(c, op, state) error`.  The second argument scripts the
responses of the successive status fetches.  The result is the returned `error`
(`none` for `nil`) and the fetches made, in order; `none` overall when the
script ends while the operation is still not `DONE`. -/
def WaitOp : Operation → List (Except Err Operation) → Option (Option Err × List OpGet)
  | op, [] =>
    if op.Status ≠ "DONE".toList then none
    else some (WaitOp.finish op, [])
  | op, r :: rest =>
    if op.Status ≠ "DONE".toList then
      match r with
      | .error err => some (some err, [WaitOp.request op])
      | .ok op1 =>
        match WaitOp op1 rest with
        | none => none
        | some (res, gets) => some (res, WaitOp.request op :: gets)
    else some (WaitOp.finish op, [])

/-! ## Template Mutator -/

/-- Source: `compute.AttachedDiskInitializeParams`. -/
structure AttachedDiskInitializeParams where
  SourceImage : GoString
deriving DecidableEq

/-- Source: `compute.AttachedDisk`; `InitializeParams` is a pointer. -/
structure AttachedDisk where
  InitializeParams : Option AttachedDiskInitializeParams
deriving DecidableEq

/-- Source: `compute.MetadataItems`; `Value` is a `*string`. -/
structure MetadataItems where
  Key : GoString
  Value : Option GoString
deriving DecidableEq

/-- Source: `compute.Metadata`. -/
structure Metadata where
  Items : List MetadataItems
deriving DecidableEq

/-- Source: `compute.InstanceProperties`; `Metadata` is a pointer. -/
structure InstanceProperties where
  Disks : List AttachedDisk
  Metadata : Option Metadata
deriving DecidableEq

/-- Source: `compute.InstanceTemplate`; `Properties` is a pointer. -/
structure InstanceTemplate where
  Name : GoString
  SelfLink : GoString
  Properties : Option InstanceProperties
deriving DecidableEq

/-- The expression `t.Properties.Disks[0].InitializeParams.SourceImage`, when
every step of it can be evaluated. -/
def InstanceTemplate.sourceImage (t : InstanceTemplate) : Option GoString :=
  match t.Properties with
  | none => none
  | some props =>
    match props.Disks with
    | [] => none
    | d :: _ =>
      match d.InitializeParams with
      | none => none
      | some ip => some ip.SourceImage

/-- The expression `t.Properties.Metadata.Items`, when it can be evaluated. -/
def InstanceTemplate.metadataItems (t : InstanceTemplate) : Option (List MetadataItems) :=
  match t.Properties with
  | none => none
  | some props =>
    match props.Metadata with
    | none => none
    | some md => some md.Items

/-- Source: `func UpdateImage(old, hash) *compute.InstanceTemplate`.  The
result is `none` when the Go code panics: nil `Properties`, nil `Metadata`, no
disk, or nil `InitializeParams` on the first disk.  In Go the new template
shares `Properties` with the old one, so the two overrides also show in the old
template; only the returned template is modelled here. -/
def UpdateImage (old : InstanceTemplate) (hash : GoString) : Option InstanceTemplate :=
  match old.Properties with
  | none => none
  | some props =>
    match props.Metadata with
    | none => none
    | some md =>
      let items := md.Items.map fun m =>
        if m.Key = "app_version".toList then { m with Value := some hash } else m
      match props.Disks with
      | [] => none
      | d :: ds =>
        match d.InitializeParams with
        | none => none
        | some ip =>
          let image := ip.SourceImage
          let ip1 : AttachedDiskInitializeParams :=
            { ip with SourceImage := strings.Replace1 image (GetHash image) hash }
          some
            { Name := strings.Replace1 old.Name (GetHash old.Name) hash
              SelfLink := strings.Replace1 old.SelfLink (GetHash old.SelfLink) hash
              Properties := some
                { props with
                  Metadata := some { md with Items := items }
                  Disks := { d with InitializeParams := some ip1 } :: ds } }

/-! ## Template Registrar -/

/-- Source: `func InsertTemplate(c, template)`.  `insert` is the provider's
answer to the create call and `script` the answers to the status fetches of
`WaitOp`.  The result tells whether the function returned or aborted, with the
status fetches made. -/
def InsertTemplate (insert : InstanceTemplate → Except Err Operation)
    (template : InstanceTemplate) (script : List (Except Err Operation)) :
    Option (Except Abort Unit × List OpGet) :=
  match insert template with
  | .error err =>
    if err.hasCode StatusConflict then some (.ok (), [])
    else some (.error (.insertTemplate err), [])
  | .ok op =>
    match WaitOp op script with
    | none => none
    | some (some err, gets) => some (.error (.insertTemplateOp err), gets)
    | some (none, gets) => some (.ok (), gets)

/-! ## Rolling Recreator -/

/-- The fields of `compute.ManagedInstance` read by the program. -/
structure ManagedInstance where
  Instance : GoString
  InstanceStatus : GoString
  CurrentAction : GoString
deriving DecidableEq

/-- The loop over `rejectActions`: `accept` becomes false at the first
action equal to the current one, and the loop stops there. -/
def ListManagedInstances.rejectLoop (cur : GoString) : List GoString → Bool → Bool
  | [], accept => accept
  | a :: rest, accept => if cur = a then false else rejectLoop cur rest accept

/-- The loop over `acceptActions`: `accept` becomes true at every action
equal to the current one. -/
def ListManagedInstances.acceptLoop (cur : GoString) : List GoString → Bool → Bool
  | [], accept => accept
  | a :: rest, accept => acceptLoop cur rest (if cur = a then true else accept)

/-- The loop over `mi.ManagedInstances`, with the slice `instances` built so
far. -/
def ListManagedInstances.loop (acceptActions rejectActions : List GoString) :
    List ManagedInstance → List GoString → List GoString
  | [], instances => instances
  | inst :: rest, instances =>
    if inst.InstanceStatus ≠ "RUNNING".toList then
      loop acceptActions rejectActions rest instances
    else if !(rejectLoop inst.CurrentAction rejectActions true) then
      loop acceptActions rejectActions rest instances
    else if !(acceptLoop inst.CurrentAction acceptActions (acceptActions.length == 0)) then
      loop acceptActions rejectActions rest instances
    else
      loop acceptActions rejectActions rest (instances ++ [inst.Instance])

/-- Source: `func ListManagedInstances(c, group, zone, acceptActions,
rejectActions) ([]string, error)`.  `resp` is the provider's answer to the
list call. -/
def ListManagedInstances (resp : Except Err (List ManagedInstance))
    (acceptActions rejectActions : List GoString) : Except Err (List GoString) :=
  match resp with
  | .error err => .error err
  | .ok mi => .ok (ListManagedInstances.loop acceptActions rejectActions mi [])

/-- The final `for` loop of `RecreateAll` (the drain phase).  Each element of
the script is the provider's answer to one list call.  The result tells whether
the loop returned or aborted and how many list calls it made; `none` when the
script ends while members are still busy. -/
def RecreateAll.drain : List (Except Err (List ManagedInstance)) →
    Option (Except Abort Unit × Nat)
  | [] => none
  | resp :: rest =>
    match ListManagedInstances resp ["RECREATING".toList] [] with
    | .error err => some (.error (.relistManaged err), 1)
    | .ok busy =>
      if busy.length = 0 then some (.ok (), 1)
      else
        match drain rest with
        | none => none
        | some (res, polls) => some (res, polls + 1)

/-- Source: `func RecreateAll(c, group, zone)`.  `list` is the answer to the
first list call, `recreate` the answer to the bulk recreate call for a given
instance list, `opScript` the answers to the status fetches of `WaitOp` and
`drainScript` the answers to the list calls of the drain phase.  The result
tells whether the function returned or aborted and how many list calls the
drain phase made. -/
def RecreateAll (list : Except Err (List ManagedInstance))
    (recreate : List GoString → Except Err Operation)
    (opScript : List (Except Err Operation))
    (drainScript : List (Except Err (List ManagedInstance))) :
    Option (Except Abort Unit × Nat) :=
  match ListManagedInstances list [] ["RECREATING".toList, "DELETING".toList] with
  | .error err => some (.error (.listManaged err), 0)
  | .ok instances =>
    if instances.length = 0 then some (.ok (), 0)
    else
      match recreate instances with
      | .error err => some (.error (.recreate err), 0)
      | .ok op =>
        match WaitOp op opScript with
        | none => none
        | some (some err, _) => some (.error (.recreateOp err), 0)
        | some (none, _) => RecreateAll.drain drainScript

/-! ## Zone lookup -/

/-- The field of `compute.InstanceGroup` read by `GetZone`. -/
structure InstanceGroup where
  Name : GoString
deriving DecidableEq

/-- The second loop of `GetZone` and the code after it.  `zones` is the whole
list of zone names, the list argument what is left of it to probe, and `get`
the provider's answer to the group lookup in a zone. -/
def GetZone.probe (get : GoString → Except Err InstanceGroup) (group : GoString)
    (zones : List GoString) : List GoString → Except Abort GoString
  | [] =>
    if zones.length = 0 then .error .computeNotEnabled
    else .error .groupNotFound
  | z :: rest =>
    match get z with
    | .error err =>
      if err.hasCode StatusNotFound then probe get group zones rest
      else .error (.getZoneOfGroup err)
    | .ok ig =>
      if ig.Name = group then .ok z
      else probe get group zones rest

/-- Source: `func GetZone(c, group) string`.  `list` is the outcome of the
paged zone listing: the pages of zone names, or the error that ended it. -/
def GetZone (list : Except Err (List (List GoString)))
    (get : GoString → Except Err InstanceGroup) (group : GoString) :
    Except Abort GoString :=
  match list with
  | .error err => .error (.listZones err)
  | .ok pages =>
    let zones := pages.foldl (fun zones items => zones ++ items) []
    GetZone.probe get group zones zones

/-! ## Notions used in the statements, and example inputs -/

/-- The template has what `UpdateImage` dereferences: properties with
metadata, and a first disk with initialize parameters. -/
def InstanceTemplate.populated (t : InstanceTemplate) : Bool :=
  t.metadataItems.isSome && t.sourceImage.isSome

/-- The string is `p + "-" + tok` where `tok` has no `-` and does not occur
anywhere in `p` (so `tok` is not empty and its first occurrence in the string
is the trailing segment). -/
def TrailingToken (s : GoString) : Prop :=
  ∃ p tok : GoString, s = p ++ '-' :: tok ∧ '-' ∉ tok ∧ ¬ tok <:+: p

/-- A template with one disk and two metadata entries. -/
def mkTemplate (name selfLink image version : String) : InstanceTemplate :=
  { Name := name.toList
    SelfLink := selfLink.toList
    Properties := some
      { Disks := [{ InitializeParams := some { SourceImage := image.toList } }]
        Metadata := some
          { Items := [{ Key := "app_version".toList, Value := some version.toList },
                      { Key := "role".toList, Value := some "web".toList }] } } }

/-- The template of the end-to-end scenario. -/
def exTemplate : InstanceTemplate :=
  mkTemplate "app-web-defaults" "p/x/instanceTemplates/app-web-defaults"
    "p/x/images/myapp-0a1b2c" "0a1b2c"

/-- A template whose self-link has the text of the version token also in the
project part. -/
def exRepeatedToken : InstanceTemplate :=
  mkTemplate "app-web-defaults" "p/defaults-x/instanceTemplates/app-web-defaults"
    "p/x/images/myapp-0a1b2c" "0a1b2c"

/-- A template whose name has no `-`. -/
def exNoToken : InstanceTemplate :=
  mkTemplate "app" "p/x/instanceTemplates/app" "p/x/images/myapp-0a1b2c" "0a1b2c"

/-- The template `app-web-defaults` of a project named `my-defaults`, with the
self-link the provider gives it. -/
def exProjectDefaults : InstanceTemplate :=
  mkTemplate "app-web-defaults"
    "https://www.googleapis.com/compute/v1/projects/my-defaults/global/instanceTemplates/app-web-defaults"
    "https://www.googleapis.com/compute/v1/projects/my-defaults/global/images/myapp-0a1b2c"
    "0a1b2c"

/-- A running member that is being recreated. -/
def exBusy (name : String) : ManagedInstance :=
  { Instance := name.toList
    InstanceStatus := "RUNNING".toList
    CurrentAction := "RECREATING".toList }

/-- A running member with no action under way. -/
def exIdle (name : String) : ManagedInstance :=
  { Instance := name.toList
    InstanceStatus := "RUNNING".toList
    CurrentAction := "NONE".toList }

/-- A member that is being recreated and is not running at the moment. -/
def exStopping (name : String) : ManagedInstance :=
  { Instance := name.toList
    InstanceStatus := "STOPPING".toList
    CurrentAction := "RECREATING".toList }

/-- Drain snapshots with 3, then 1, then 0 members being recreated. -/
def exDrainScript : List (Except Err (List ManagedInstance)) :=
  [.ok [exBusy "i1", exBusy "i2", exBusy "i3"],
   .ok [exIdle "i1", exBusy "i2", exIdle "i3"],
   .ok [exIdle "i1", exIdle "i2", exIdle "i3"]]

/-- A global operation without error payload in the given status. -/
def exOp (status : String) : Operation :=
  { Name := "operation-1".toList
    Zone := []
    Region := []
    Status := status.toList
    Error := none
    Progress := 0 }

/-- The error payload of a failed operation. -/
def exOperationError : OperationError :=
  { Errors := [{ Code := "QUOTA_EXCEEDED".toList, Message := "quota exceeded".toList }] }

/-- A finished operation that carries one error. -/
def exFailedOp : Operation :=
  { exOp "DONE" with Error := some exOperationError }

/-- A group lookup that finds a group named `other` in zone `z1`, the group
`web-group` in zone `z2`, and nothing elsewhere. -/
def exGet (zone : GoString) : Except Err InstanceGroup :=
  if zone = "z1".toList then .ok { Name := "other".toList }
  else if zone = "z2".toList then .ok { Name := "web-group".toList }
  else .error (.googleapi StatusNotFound)

/-! ## Lemmas on the string functions -/

theorem LastIndex_no_dash (s : GoString) (h : '-' ∉ s) :
    strings.LastIndex s ['-'] = -1 := by
  induction s with
  | nil => simp [strings.LastIndex]
  | cons c cs ih =>
    have hc : c ≠ '-' := fun e => h (by simp [e])
    have hcs : '-' ∉ cs := fun e => h (by simp [e])
    have hne : ('-' == c) = false := by
      simp only [beq_eq_false_iff_ne, ne_eq]
      exact fun e => hc e.symm
    simp [strings.LastIndex, ih hcs, List.isPrefixOf, hne]

theorem LastIndex_dash (pre tok : GoString) (h : '-' ∉ tok) :
    strings.LastIndex (pre ++ '-' :: tok) ['-'] = pre.length := by
  induction pre with
  | nil => simp [strings.LastIndex, LastIndex_no_dash tok h, List.isPrefixOf]
  | cons c cs ih =>
    have h0 : (0 : Int) ≤ cs.length := by omega
    simp [strings.LastIndex, ih, h0]

theorem GetHash_dash (pre tok : GoString) (h : '-' ∉ tok) :
    GetHash (pre ++ '-' :: tok) = tok := by
  simp only [GetHash, LastIndex_dash pre tok h]
  have h1 : ¬ ((pre.length : Int) < 0) := by omega
  have h2 : ((pre.length : Int) + 1).toNat = pre.length + 1 := by omega
  rw [if_neg h1, h2]
  simp

theorem GetHash_no_dash (name : GoString) (h : '-' ∉ name) : GetHash name = [] := by
  simp [GetHash, LastIndex_no_dash name h]

/-- C4: `GetHash` returns what follows the last `-`: the token of
`prefix + "-" + token` when the token has no `-`, and the empty string for a
name without any `-`. -/
theorem GetHash_spec (pre tok name : GoString) :
    ('-' ∉ tok → GetHash (pre ++ '-' :: tok) = tok) ∧
    ('-' ∉ name → GetHash name = []) :=
  ⟨GetHash_dash pre tok, GetHash_no_dash name⟩

theorem GetHash_spec_witness :
    ('-' ∉ "abc123".toList ∧
      GetHash ("myapp".toList ++ '-' :: "abc123".toList) = "abc123".toList) ∧
    ('-' ∉ "defaults".toList ∧ GetHash "defaults".toList = []) :=
  ⟨⟨by decide, (GetHash_spec "myapp".toList "abc123".toList "defaults".toList).1 (by decide)⟩,
   ⟨by decide, (GetHash_spec "myapp".toList "abc123".toList "defaults".toList).2 (by decide)⟩⟩


theorem Index_nil_right (s : GoString) : strings.Index s [] = 0 := by
  cases s <;> simp [strings.Index, List.isPrefixOf]

theorem Index_self (s : GoString) : strings.Index s s = 0 := by
  cases s with
  | nil => simp [strings.Index]
  | cons c cs =>
    have h : (c :: cs).isPrefixOf (c :: cs) = true :=
      List.isPrefixOf_iff_prefix.mpr (List.prefix_refl _)
    simp only [strings.Index, h, if_true]

theorem Replace1_nil_old (s new : GoString) : strings.Replace1 s [] new = new ++ s := by
  unfold strings.Replace1
  by_cases h : ([] : GoString) = new
  · rw [if_pos h, ← h]; rfl
  · rw [if_neg h]
    simp [Index_nil_right]

theorem Replace1_same (s old : GoString) : strings.Replace1 s old old = s := by
  simp [strings.Replace1]

/-- A token without `-` that does not occur in `p` is not a prefix of any
`r ++ "-" ++ tok` with `r` a suffix of `p`. -/
theorem not_prefix_of_suffix (p q r tok : GoString) (hp : p = q ++ r) (hd : '-' ∉ tok)
    (hi : ¬ tok <:+: p) : ¬ tok <+: r ++ '-' :: tok := by
  intro hpre
  have h2 : r ++ ['-'] <+: r ++ '-' :: tok := ⟨tok, by simp⟩
  rcases List.prefix_or_prefix_of_prefix hpre h2 with h | h
  · rcases List.prefix_concat_iff.mp h with h | h
    · exact hd (by rw [h]; simp)
    · obtain ⟨u, hu⟩ := h
      exact hi ⟨q, u, by rw [hp, ← hu]; simp⟩
  · obtain ⟨u, hu⟩ := h
    exact hd (by rw [← hu]; simp)

theorem Index_trailing (p tok : GoString) (hd : '-' ∉ tok) (hi : ¬ tok <:+: p) :
    strings.Index (p ++ '-' :: tok) tok = p.length + 1 := by
  have key : ∀ (r q : GoString), p = q ++ r →
      strings.Index (r ++ '-' :: tok) tok = r.length + 1 := by
    intro r
    induction r with
    | nil =>
      intro q hq
      have hnp : tok.isPrefixOf ('-' :: tok) = false := by
        rw [Bool.eq_false_iff]
        intro hc
        exact not_prefix_of_suffix p q [] tok hq hd hi (List.isPrefixOf_iff_prefix.mp hc)
      simp [strings.Index, hnp, Index_self]
    | cons c cs ih =>
      intro q hq
      have hnp : tok.isPrefixOf (c :: (cs ++ '-' :: tok)) = false := by
        rw [Bool.eq_false_iff]
        intro hc
        exact not_prefix_of_suffix p q (c :: cs) tok hq hd hi (List.isPrefixOf_iff_prefix.mp hc)
      have hcs := ih (q ++ [c]) (by rw [hq]; simp)
      have h0 : ¬ ((cs.length : Int) + 1 < 0) := by omega
      simp [strings.Index, hnp, hcs, h0]
  exact key p [] (by simp)

theorem Replace1_trailing (p tok new : GoString) (hd : '-' ∉ tok) (hi : ¬ tok <:+: p) :
    strings.Replace1 (p ++ '-' :: tok) tok new = p ++ '-' :: new := by
  unfold strings.Replace1
  by_cases h : tok = new
  · rw [if_pos h, h]
  · rw [if_neg h]
    have h0 : ¬ ((p.length : Int) + 1 < 0) := by omega
    have h1 : ((p.length : Int) + 1).toNat = p.length + 1 := by omega
    simp only [Index_trailing p tok hd hi, h0, if_false, h1]
    have e1 : List.take (p.length + 1) (p ++ '-' :: tok) = p ++ ['-'] := by
      rw [List.take_append_eq_append_take]; simp
    have e2 : List.drop (p.length + 1 + tok.length) (p ++ '-' :: tok) = [] := by
      apply List.drop_of_length_le; simp; omega
    rw [e1, e2]; simp

/-! ## Template Mutator: what `UpdateImage` computes -/

theorem UpdateImage_isSome (old : InstanceTemplate) (hash : GoString)
    (hp : old.populated = true) : ∃ t, UpdateImage old hash = some t := by
  obtain ⟨name, link, props⟩ := old
  cases props with
  | none => simp [InstanceTemplate.populated, InstanceTemplate.metadataItems] at hp
  | some props =>
    obtain ⟨disks, md⟩ := props
    cases md with
    | none => simp [InstanceTemplate.populated, InstanceTemplate.metadataItems] at hp
    | some md =>
      cases disks with
      | nil => simp [InstanceTemplate.populated, InstanceTemplate.sourceImage] at hp
      | cons d ds =>
        obtain ⟨ip⟩ := d
        cases ip with
        | none => simp [InstanceTemplate.populated, InstanceTemplate.sourceImage] at hp
        | some ip => exact ⟨_, rfl⟩

theorem UpdateImage_fields (old t : InstanceTemplate) (hash : GoString)
    (hu : UpdateImage old hash = some t) :
    t.Name = strings.Replace1 old.Name (GetHash old.Name) hash ∧
    t.SelfLink = strings.Replace1 old.SelfLink (GetHash old.SelfLink) hash ∧
    ∃ image, old.sourceImage = some image ∧
      t.sourceImage = some (strings.Replace1 image (GetHash image) hash) := by
  obtain ⟨name, link, props⟩ := old
  cases props with
  | none => simp [UpdateImage] at hu
  | some props =>
    obtain ⟨disks, md⟩ := props
    cases md with
    | none => simp [UpdateImage] at hu
    | some md =>
      cases disks with
      | nil => simp [UpdateImage] at hu
      | cons d ds =>
        obtain ⟨ip⟩ := d
        cases ip with
        | none => simp [UpdateImage] at hu
        | some ip =>
          simp only [UpdateImage, Option.some.injEq] at hu
          subst hu
          exact ⟨rfl, rfl, ip.SourceImage, rfl, rfl⟩

theorem Replace1_GetHash_trailing (s new : GoString) (hs : TrailingToken s) :
    ∃ p tok : GoString, s = p ++ '-' :: tok ∧
      strings.Replace1 s (GetHash s) new = p ++ '-' :: new := by
  obtain ⟨p, tok, rfl, hd, hi⟩ := hs
  exact ⟨p, tok, rfl, by rw [GetHash_dash p tok hd, Replace1_trailing p tok new hd hi]⟩

theorem Replace1_GetHash_idem (s new : GoString) (hs : TrailingToken s) (hn : '-' ∉ new) :
    strings.Replace1 (strings.Replace1 s (GetHash s) new)
      (GetHash (strings.Replace1 s (GetHash s) new)) new
      = strings.Replace1 s (GetHash s) new := by
  obtain ⟨p, tok, _, h⟩ := Replace1_GetHash_trailing s new hs
  rw [h, GetHash_dash p new hn, Replace1_same]

theorem setVersion_idem (hash : GoString) (items : List MetadataItems) :
    List.map (fun m : MetadataItems =>
        if m.Key = "app_version".toList then { m with Value := some hash } else m)
      (List.map (fun m : MetadataItems =>
        if m.Key = "app_version".toList then { m with Value := some hash } else m) items)
    = List.map (fun m : MetadataItems =>
        if m.Key = "app_version".toList then { m with Value := some hash } else m) items := by
  rw [List.map_map]
  apply List.map_congr_left
  intro m _
  by_cases hk : m.Key = "app_version".toList
  · simp only [Function.comp_apply, hk, if_true]
  · simp only [Function.comp_apply, hk, if_false]

/-- Where the first occurrence of the token is the trailing one, `UpdateImage`
replaces the trailing segment: on a template that it can process, each of
Name, SelfLink and the first disk's SourceImage of the form `p + "-" + tok`,
with `tok` free of `-` and not occurring in `p`, comes out as `p + "-" + h`. -/
theorem UpdateImage_first_is_trailing (old : InstanceTemplate) (h : GoString)
    (hp : old.populated = true) :
    ∃ t, UpdateImage old h = some t ∧
      (∀ p tok : GoString, old.Name = p ++ '-' :: tok → '-' ∉ tok → ¬ tok <:+: p →
        t.Name = p ++ '-' :: h) ∧
      (∀ p tok : GoString, old.SelfLink = p ++ '-' :: tok → '-' ∉ tok → ¬ tok <:+: p →
        t.SelfLink = p ++ '-' :: h) ∧
      (∀ p tok : GoString, old.sourceImage = some (p ++ '-' :: tok) → '-' ∉ tok →
        ¬ tok <:+: p → t.sourceImage = some (p ++ '-' :: h)) := by
  obtain ⟨t, ht⟩ := UpdateImage_isSome old h hp
  obtain ⟨hN, hS, image, hI, hI2⟩ := UpdateImage_fields old t h ht
  refine ⟨t, ht, ?_, ?_, ?_⟩
  · intro p tok e hd hi
    rw [hN, e, GetHash_dash p tok hd, Replace1_trailing p tok h hd hi]
  · intro p tok e hd hi
    rw [hS, e, GetHash_dash p tok hd, Replace1_trailing p tok h hd hi]
  · intro p tok e hd hi
    rw [hI] at e
    have e1 : image = p ++ '-' :: tok := Option.some.inj e
    rw [hI2, e1, GetHash_dash p tok hd, Replace1_trailing p tok h hd hi]

/-- C1: the code at the failing input.  The self-link of template
`app-web-defaults` in project `my-defaults` is `p + "-" + tok` with
`tok = defaults` free of `-`, so the claim asks for `p + "-" + abc123`.
`UpdateImage` instead rewrites the first occurrence of `defaults`, the one in
the project name, and leaves the trailing segment as it was; the name, whose
token occurs only at the end, is rewritten as the claim says. -/
theorem UpdateImage_rewrites_first_occurrence :
    exProjectDefaults.SelfLink =
      "https://www.googleapis.com/compute/v1/projects/my-defaults/global/instanceTemplates/app-web".toList
        ++ '-' :: "defaults".toList ∧
    '-' ∉ "defaults".toList ∧
    GetHash exProjectDefaults.SelfLink = "defaults".toList ∧
    (UpdateImage exProjectDefaults "abc123".toList).map (fun t => t.SelfLink) =
      some "https://www.googleapis.com/compute/v1/projects/my-abc123/global/instanceTemplates/app-web-defaults".toList ∧
    (UpdateImage exProjectDefaults "abc123".toList).map (fun t => t.SelfLink) ≠
      some ("https://www.googleapis.com/compute/v1/projects/my-defaults/global/instanceTemplates/app-web".toList
        ++ '-' :: "abc123".toList) ∧
    (UpdateImage exProjectDefaults "abc123".toList).map (fun t => t.Name) =
      some "app-web-abc123".toList := by
  decide

/-- C10 (amended): on a template that `UpdateImage` can process, a field
among Name, SelfLink and the first disk's SourceImage whose `GetHash` is empty
comes out as the new token followed by the old string. -/
theorem UpdateImage_no_token_prepends (old : InstanceTemplate) (h : GoString)
    (hp : old.populated = true) :
    ∃ t, UpdateImage old h = some t ∧
      (GetHash old.Name = [] → t.Name = h ++ old.Name) ∧
      (GetHash old.SelfLink = [] → t.SelfLink = h ++ old.SelfLink) ∧
      (∀ image, old.sourceImage = some image → GetHash image = [] →
        t.sourceImage = some (h ++ image)) := by
  obtain ⟨t, ht⟩ := UpdateImage_isSome old h hp
  obtain ⟨hN, hS, image, hI, hI2⟩ := UpdateImage_fields old t h ht
  refine ⟨t, ht, ?_, ?_, ?_⟩
  · intro e
    rw [hN, e, Replace1_nil_old]
  · intro e
    rw [hS, e, Replace1_nil_old]
  · intro image1 e1 e
    rw [hI] at e1
    have e2 : image = image1 := Option.some.inj e1
    rw [hI2, e2, e, Replace1_nil_old]

theorem UpdateImage_no_token_prepends_witness :
    exNoToken.populated = true ∧
    ∃ t, UpdateImage exNoToken "abc123".toList = some t ∧
      GetHash exNoToken.Name = [] ∧ t.Name = "abc123app".toList := by
  refine ⟨by decide, ?_⟩
  obtain ⟨t, ht, hN, _, _⟩ :=
    UpdateImage_no_token_prepends exNoToken "abc123".toList (by decide)
  exact ⟨t, ht, by decide, hN (by decide)⟩

/-- C10 as stated fails: the name `app` has no version token, and
`UpdateImage` turns it into `abc123app` instead of leaving it unchanged. -/
theorem UpdateImage_no_token_counterexample :
    GetHash exNoToken.Name = [] ∧
    (UpdateImage exNoToken "abc123".toList).map (fun t => t.Name) =
      some "abc123app".toList ∧
    "abc123app".toList ≠ exNoToken.Name := by
  decide

/-- C5 (amended): for a new token without `-` and a template that
`UpdateImage` can process whose Name, SelfLink and first-disk SourceImage each
end in a `-`-delimited token that does not occur earlier in the string,
applying `UpdateImage` to its own result gives that result again (all fields,
metadata included). -/
theorem UpdateImage_idempotent (old : InstanceTemplate) (h : GoString)
    (hp : old.populated = true) (hh : '-' ∉ h)
    (hN : TrailingToken old.Name) (hS : TrailingToken old.SelfLink)
    (hI : ∃ image, old.sourceImage = some image ∧ TrailingToken image) :
    ∃ t, UpdateImage old h = some t ∧ UpdateImage t h = some t := by
  obtain ⟨name, link, props⟩ := old
  cases props with
  | none => simp [InstanceTemplate.populated, InstanceTemplate.metadataItems] at hp
  | some props =>
    obtain ⟨disks, md⟩ := props
    cases md with
    | none => simp [InstanceTemplate.populated, InstanceTemplate.metadataItems] at hp
    | some md =>
      cases disks with
      | nil => simp [InstanceTemplate.populated, InstanceTemplate.sourceImage] at hp
      | cons d ds =>
        obtain ⟨ip⟩ := d
        cases ip with
        | none => simp [InstanceTemplate.populated, InstanceTemplate.sourceImage] at hp
        | some ip =>
          obtain ⟨image, hi1, hi2⟩ := hI
          have hi3 : ip.SourceImage = image := by
            simpa [InstanceTemplate.sourceImage] using hi1
          subst hi3
          refine ⟨_, rfl, ?_⟩
          simp only [UpdateImage]
          rw [Replace1_GetHash_idem name h hN hh, Replace1_GetHash_idem link h hS hh,
            Replace1_GetHash_idem ip.SourceImage h hi2 hh, setVersion_idem]

theorem UpdateImage_idempotent_witness :
    (exTemplate.populated = true ∧ '-' ∉ "abc123".toList) ∧
    ∃ t, UpdateImage exTemplate "abc123".toList = some t ∧
      UpdateImage t "abc123".toList = some t ∧ t.Name = "app-web-abc123".toList := by
  refine ⟨⟨by decide, by decide⟩, ?_⟩
  obtain ⟨t, ht, ht2⟩ := UpdateImage_idempotent exTemplate "abc123".toList (by decide)
    (by decide)
    ⟨"app-web".toList, "defaults".toList, by decide, by decide, by decide⟩
    ⟨"p/x/instanceTemplates/app-web".toList, "defaults".toList, by decide, by decide,
      by decide⟩
    ⟨"p/x/images/myapp-0a1b2c".toList, by decide,
      "p/x/images/myapp".toList, "0a1b2c".toList, by decide, by decide, by decide⟩
  refine ⟨t, ht, ht2, ?_⟩
  have e : some t = UpdateImage exTemplate "abc123".toList := ht.symm
  have e2 : (UpdateImage exTemplate "abc123".toList).map (fun t => t.Name) =
      some "app-web-abc123".toList := by decide
  rw [← e] at e2
  exact Option.some.inj e2

/-- C5 as stated fails in three ways: a name without token gets the new token
in front at every application; a new token containing `-` is only replaced in
part the second time; and a token text that also occurs earlier in the string
is replaced there, one occurrence per application. -/
theorem UpdateImage_idempotent_counterexample :
    ((UpdateImage exNoToken "abc123".toList).map (fun t => t.Name) =
        some "abc123app".toList ∧
      ((UpdateImage exNoToken "abc123".toList).bind
        (fun t => UpdateImage t "abc123".toList)).map (fun t => t.Name) =
        some "abc123abc123app".toList) ∧
    ((UpdateImage exTemplate "c-d".toList).map (fun t => t.Name) =
        some "app-web-c-d".toList ∧
      ((UpdateImage exTemplate "c-d".toList).bind
        (fun t => UpdateImage t "c-d".toList)).map (fun t => t.Name) =
        some "app-web-c-c-d".toList) ∧
    ((UpdateImage exRepeatedToken "abc123".toList).map (fun t => t.SelfLink) =
        some "p/abc123-x/instanceTemplates/app-web-defaults".toList ∧
      ((UpdateImage exRepeatedToken "abc123".toList).bind
        (fun t => UpdateImage t "abc123".toList)).map (fun t => t.SelfLink) =
        some "p/abc123-x/instanceTemplates/app-web-abc123".toList) := by
  decide

/-! ## Rolling Recreator: selection and drain -/

theorem rejectLoop_eq (cur : GoString) (actions : List GoString) :
    ListManagedInstances.rejectLoop cur actions true = decide (cur ∉ actions) := by
  induction actions with
  | nil => simp [ListManagedInstances.rejectLoop]
  | cons a rest ih =>
    by_cases h : cur = a
    · simp [ListManagedInstances.rejectLoop, h]
    · simp [ListManagedInstances.rejectLoop, h, ih]

theorem acceptLoop_eq (cur : GoString) (actions : List GoString) (accept : Bool) :
    ListManagedInstances.acceptLoop cur actions accept = (accept || decide (cur ∈ actions)) := by
  induction actions generalizing accept with
  | nil => simp [ListManagedInstances.acceptLoop]
  | cons a rest ih =>
    by_cases h : cur = a
    · subst h
      simp [ListManagedInstances.acceptLoop, ih]
    · simp [ListManagedInstances.acceptLoop, h, ih]

theorem loop_eq_filter (acceptActions rejectActions : List GoString)
    (mi : List ManagedInstance) (instances : List GoString) :
    ListManagedInstances.loop acceptActions rejectActions mi instances =
      instances ++ (mi.filter fun inst =>
        decide (inst.InstanceStatus = "RUNNING".toList) &&
        decide (inst.CurrentAction ∉ rejectActions) &&
        (decide (acceptActions.length = 0) ||
          decide (inst.CurrentAction ∈ acceptActions))).map fun inst => inst.Instance := by
  induction mi generalizing instances with
  | nil => simp [ListManagedInstances.loop]
  | cons inst rest ih =>
    rw [ListManagedInstances.loop]
    simp only [rejectLoop_eq, acceptLoop_eq, ih, List.filter_cons]
    by_cases h1 : inst.InstanceStatus = "RUNNING".toList
    · by_cases h2 : inst.CurrentAction ∈ rejectActions
      · simp_all
      · by_cases h3 : acceptActions.length = 0
        · simp_all
        · by_cases h4 : inst.CurrentAction ∈ acceptActions
          · simp_all
          · simp_all
    · simp_all

/-- C2: the selection of `RecreateAll` returns, in snapshot order, the instance
references of exactly the members with status `RUNNING` whose current action is
neither `RECREATING` nor `DELETING`. -/
theorem ListManagedInstances_selection (snapshot : List ManagedInstance) :
    ListManagedInstances (.ok snapshot) [] ["RECREATING".toList, "DELETING".toList] =
      .ok ((snapshot.filter fun inst =>
        decide (inst.InstanceStatus = "RUNNING".toList ∧
          inst.CurrentAction ≠ "RECREATING".toList ∧
          inst.CurrentAction ≠ "DELETING".toList)).map fun inst => inst.Instance) := by
  simp only [ListManagedInstances, loop_eq_filter, List.nil_append]
  congr 2
  apply List.filter_congr
  intro inst _
  simp [and_assoc]

theorem busy_eq_filter (snapshot : List ManagedInstance) :
    ListManagedInstances (.ok snapshot) ["RECREATING".toList] [] =
      .ok ((snapshot.filter fun inst =>
        decide (inst.InstanceStatus = "RUNNING".toList ∧
          inst.CurrentAction = "RECREATING".toList)).map fun inst => inst.Instance) := by
  simp only [ListManagedInstances, loop_eq_filter, List.nil_append]
  congr 2
  apply List.filter_congr
  intro inst _
  simp

theorem drain_cons_busy (snapshot : List ManagedInstance) (busy : List GoString)
    (rest : List (Except Err (List ManagedInstance)))
    (hb : ListManagedInstances (.ok snapshot) ["RECREATING".toList] [] = .ok busy)
    (hne : busy ≠ []) :
    RecreateAll.drain (.ok snapshot :: rest) =
      (RecreateAll.drain rest).map fun r => (r.1, r.2 + 1) := by
  have hl : ¬ busy.length = 0 := fun h => hne (List.length_eq_zero.mp h)
  rw [RecreateAll.drain, hb]
  simp only [hl, if_false]
  cases RecreateAll.drain rest with
  | none => rfl
  | some r => rfl

theorem drain_cons_idle (snapshot : List ManagedInstance)
    (rest : List (Except Err (List ManagedInstance)))
    (hb : ListManagedInstances (.ok snapshot) ["RECREATING".toList] [] = .ok []) :
    RecreateAll.drain (.ok snapshot :: rest) = some (.ok (), 1) := by
  rw [RecreateAll.drain, hb]
  rfl

/-- C6 (amended): the busy set of a drain poll is, in snapshot order, the
instance references of the members whose status is `RUNNING` and whose current
action is `RECREATING`; while some `RUNNING` member has current action
`RECREATING` the drain does not return at that poll and goes on to the next. -/
theorem drain_busy_set (snapshot : List ManagedInstance)
    (rest : List (Except Err (List ManagedInstance))) :
    ListManagedInstances (.ok snapshot) ["RECREATING".toList] [] =
      .ok ((snapshot.filter fun inst =>
        decide (inst.InstanceStatus = "RUNNING".toList ∧
          inst.CurrentAction = "RECREATING".toList)).map fun inst => inst.Instance) ∧
    ((∃ inst ∈ snapshot, inst.InstanceStatus = "RUNNING".toList ∧
        inst.CurrentAction = "RECREATING".toList) →
      RecreateAll.drain (.ok snapshot :: rest) =
        (RecreateAll.drain rest).map fun r => (r.1, r.2 + 1)) := by
  refine ⟨busy_eq_filter snapshot, ?_⟩
  rintro ⟨inst, hm, hs, ha⟩
  apply drain_cons_busy snapshot _ rest (busy_eq_filter snapshot)
  intro hnil
  have hmem : inst ∈ snapshot.filter fun inst =>
      decide (inst.InstanceStatus = "RUNNING".toList ∧
        inst.CurrentAction = "RECREATING".toList) := by
    rw [List.mem_filter]
    exact ⟨hm, decide_eq_true ⟨hs, ha⟩⟩
  rw [List.map_eq_nil_iff] at hnil
  rw [hnil] at hmem
  exact List.not_mem_nil _ hmem

theorem drain_busy_set_witness :
    (∃ inst ∈ [exIdle "i1", exBusy "i2"], inst.InstanceStatus = "RUNNING".toList ∧
        inst.CurrentAction = "RECREATING".toList) ∧
    RecreateAll.drain [.ok [exIdle "i1", exBusy "i2"], .ok [exIdle "i1", exIdle "i2"]] =
      some (.ok (), 2) :=
  ⟨⟨exBusy "i2", by decide, by decide, by decide⟩,
   ((drain_busy_set [exIdle "i1", exBusy "i2"] [.ok [exIdle "i1", exIdle "i2"]]).2
      ⟨exBusy "i2", by decide, by decide, by decide⟩).trans rfl⟩

/-- C6 as stated fails: a member whose current action is `RECREATING` and whose
status is not `RUNNING` is left out of the busy set, and the drain reports
completion at once. -/
theorem drain_busy_set_counterexample :
    (exStopping "i1").CurrentAction = "RECREATING".toList ∧
    ListManagedInstances (.ok [exStopping "i1"]) ["RECREATING".toList] [] = .ok [] ∧
    RecreateAll.drain [.ok [exStopping "i1"]] = some (.ok (), 1) :=
  ⟨rfl, rfl, rfl⟩

theorem drain_prefix_busy (pre : List (Except Err (List ManagedInstance)))
    (rest : List (Except Err (List ManagedInstance)))
    (hpre : ∀ x ∈ pre, ∃ snap busy, x = .ok snap ∧
      ListManagedInstances (.ok snap) ["RECREATING".toList] [] = .ok busy ∧ busy ≠ []) :
    RecreateAll.drain (pre ++ rest) =
      (RecreateAll.drain rest).map fun r => (r.1, r.2 + pre.length) := by
  induction pre with
  | nil =>
    rw [List.nil_append]
    cases RecreateAll.drain rest with
    | none => rfl
    | some r => rfl
  | cons x xs ih =>
    obtain ⟨snap, busy, rfl, hb, hne⟩ := hpre x (List.mem_cons_self _ _)
    have ih1 := ih fun y hy => hpre y (List.mem_cons_of_mem _ hy)
    rw [List.cons_append, drain_cons_busy snap busy _ hb hne, ih1]
    cases RecreateAll.drain rest with
    | none => rfl
    | some r =>
      simp only [Option.map_some', List.length_cons, Option.some.injEq, Prod.mk.injEq,
        true_and]
      omega

/-- C9: when the first `k - 1` drain snapshots have a non-empty busy list and
the `k`-th has an empty one, the drain loop of `RecreateAll` makes exactly `k`
list calls and returns at the `k`-th; it has not returned after the first
`k - 1`. -/
theorem drain_polls (pre post : List (Except Err (List ManagedInstance)))
    (s : List ManagedInstance)
    (hpre : ∀ x ∈ pre, ∃ snap busy, x = .ok snap ∧
      ListManagedInstances (.ok snap) ["RECREATING".toList] [] = .ok busy ∧ busy ≠ [])
    (hs : ListManagedInstances (.ok s) ["RECREATING".toList] [] = .ok []) :
    RecreateAll.drain (pre ++ .ok s :: post) = some (.ok (), pre.length + 1) ∧
    RecreateAll.drain pre = none ∧
    ∀ (list : Except Err (List ManagedInstance))
      (recreate : List GoString → Except Err Operation)
      (opScript : List (Except Err Operation)) (instances : List GoString)
      (op : Operation) (gets : List OpGet),
      ListManagedInstances list [] ["RECREATING".toList, "DELETING".toList] = .ok instances →
      instances ≠ [] → recreate instances = .ok op →
      WaitOp op opScript = some (none, gets) →
      RecreateAll list recreate opScript (pre ++ .ok s :: post) =
        some (.ok (), pre.length + 1) := by
  have h1 : RecreateAll.drain (pre ++ .ok s :: post) = some (.ok (), pre.length + 1) := by
    rw [drain_prefix_busy pre _ hpre, drain_cons_idle s post hs]
    simp only [Option.map_some']
    congr 2
    omega
  have h2 : RecreateAll.drain pre = none := by
    have h := drain_prefix_busy pre [] hpre
    rw [List.append_nil] at h
    rw [h]
    rfl
  refine ⟨h1, h2, ?_⟩
  intro list recreate opScript instances op gets hl hne hr hw
  have hlen : ¬ instances.length = 0 := fun h => hne (List.length_eq_zero.mp h)
  simp only [RecreateAll, hl, hlen, if_false, hr, hw, h1]

theorem drain_polls_witness :
    RecreateAll.drain exDrainScript = some (.ok (), 3) := by
  have h := (drain_polls
    [.ok [exBusy "i1", exBusy "i2", exBusy "i3"], .ok [exIdle "i1", exBusy "i2", exIdle "i3"]]
    [] [exIdle "i1", exIdle "i2", exIdle "i3"]
    (by
      intro x hx
      simp only [List.mem_cons, List.mem_singleton, List.not_mem_nil, or_false] at hx
      rcases hx with rfl | rfl
      · exact ⟨_, _, rfl, rfl, by decide⟩
      · exact ⟨_, _, rfl, rfl, by decide⟩)
    rfl).1
  exact h

/-! ## Operation Waiter -/

theorem WaitOp_done (op : Operation) (script : List (Except Err Operation))
    (hd : op.Status = "DONE".toList) : WaitOp op script = some (WaitOp.finish op, []) := by
  cases script with
  | nil => simp [WaitOp, hd]
  | cons r rest => simp [WaitOp, hd]

theorem WaitOp_stop (op : Operation) (pre post : List (Except Err Operation))
    (r : Except Err Operation)
    (hpre : ∀ x ∈ pre, ∃ o, x = .ok o ∧ o.Status ≠ "DONE".toList)
    (hr : (∃ e, r = .error e) ∨ ∃ o, r = .ok o ∧ o.Status = "DONE".toList)
    (hop : op.Status ≠ "DONE".toList) :
    ∃ gets, WaitOp op (pre ++ r :: post) =
        some ((match r with
          | .error e => some e
          | .ok o => WaitOp.finish o), gets) ∧
      gets.length = pre.length + 1 := by
  induction pre generalizing op with
  | nil =>
    rcases hr with ⟨e, rfl⟩ | ⟨o, rfl, ho⟩
    · exact ⟨[WaitOp.request op], by rw [List.nil_append, WaitOp, if_pos hop], rfl⟩
    · refine ⟨[WaitOp.request op], ?_, rfl⟩
      rw [List.nil_append, WaitOp, if_pos hop]
      simp only [WaitOp_done o post ho]
  | cons x xs ih =>
    obtain ⟨o, rfl, ho⟩ := hpre x (List.mem_cons_self _ _)
    obtain ⟨gets, hg, hl⟩ := ih o (fun y hy => hpre y (List.mem_cons_of_mem _ hy)) ho
    refine ⟨WaitOp.request op :: gets, ?_, by simp [hl]⟩
    rw [List.cons_append, WaitOp]
    simp only [hop, ne_eq, not_false_eq_true, if_true, hg]

/-- C3: `WaitOp` makes no fetch when the initial operation is already `DONE`;
otherwise it fetches up to and including the first response that is a
transport error or a `DONE` operation, and no further.  It returns the
transport error when there is one, an `opError` when the final operation has a
non-empty error list, and `nil` otherwise. -/
theorem WaitOp_spec (op : Operation) (pre post : List (Except Err Operation))
    (r : Except Err Operation)
    (hpre : ∀ x ∈ pre, ∃ o, x = .ok o ∧ o.Status ≠ "DONE".toList)
    (hr : (∃ e, r = .error e) ∨ ∃ o, r = .ok o ∧ o.Status = "DONE".toList) :
    (op.Status = "DONE".toList →
      ∀ script, WaitOp op script = some (WaitOp.finish op, [])) ∧
    (op.Status ≠ "DONE".toList →
      (∀ e, r = .error e →
        ∃ gets, WaitOp op (pre ++ r :: post) = some (some e, gets) ∧
          gets.length = pre.length + 1) ∧
      (∀ o, r = .ok o →
        ∃ gets, WaitOp op (pre ++ r :: post) = some (WaitOp.finish o, gets) ∧
          gets.length = pre.length + 1)) ∧
    (∀ (o : Operation) (oe : OperationError), o.Error = some oe → oe.Errors ≠ [] →
      WaitOp.finish o = some (.opError oe)) ∧
    (∀ o : Operation, (o.Error = none ∨ ∃ oe, o.Error = some oe ∧ oe.Errors = []) →
      WaitOp.finish o = none) := by
  refine ⟨fun hd script => WaitOp_done op script hd, ?_, ?_, ?_⟩
  · intro hop
    obtain ⟨gets, hg, hl⟩ := WaitOp_stop op pre post r hpre hr hop
    constructor
    · intro e he
      subst he
      exact ⟨gets, hg, hl⟩
    · intro o ho
      subst ho
      exact ⟨gets, hg, hl⟩
  · intro o oe he hne
    have hl : ¬ oe.Errors.length = 0 := fun h => hne (List.length_eq_zero.mp h)
    simp [WaitOp.finish, he, hl]
  · intro o ho
    rcases ho with he | ⟨oe, he, hnil⟩
    · simp [WaitOp.finish, he]
    · simp [WaitOp.finish, he, hnil]

theorem WaitOp_spec_witness :
    (∃ gets, WaitOp (exOp "PENDING") [.ok (exOp "RUNNING"), .ok (exOp "DONE")] =
        some (none, gets) ∧ gets.length = 2) ∧
    (∃ gets, WaitOp (exOp "PENDING") [.ok (exOp "RUNNING"), .ok exFailedOp] =
        some (some (.opError exOperationError), gets) ∧ gets.length = 2) ∧
    (∃ gets, WaitOp (exOp "PENDING")
        [.ok (exOp "RUNNING"), .error (.other "timeout".toList), .ok (exOp "DONE")] =
        some (some (.other "timeout".toList), gets) ∧ gets.length = 2) := by
  have hpre : ∀ x ∈ [(Except.ok (exOp "RUNNING") : Except Err Operation)],
      ∃ o, x = .ok o ∧ o.Status ≠ "DONE".toList := by
    intro x hx
    rw [List.mem_singleton] at hx
    exact ⟨exOp "RUNNING", hx, by decide⟩
  have hne : (exOp "PENDING").Status ≠ "DONE".toList := by decide
  refine ⟨?_, ?_, ?_⟩
  · exact ((WaitOp_spec (exOp "PENDING") [.ok (exOp "RUNNING")] [] (.ok (exOp "DONE")) hpre
      (Or.inr ⟨_, rfl, rfl⟩)).2.1 hne).2 _ rfl
  · exact ((WaitOp_spec (exOp "PENDING") [.ok (exOp "RUNNING")] [] (.ok exFailedOp) hpre
      (Or.inr ⟨_, rfl, rfl⟩)).2.1 hne).2 _ rfl
  · exact ((WaitOp_spec (exOp "PENDING") [.ok (exOp "RUNNING")] [.ok (exOp "DONE")]
      (.error (.other "timeout".toList)) hpre (Or.inl ⟨_, rfl⟩)).2.1 hne).1 _ rfl

/-! ## Template Registrar -/

theorem hasCode_iff (e : Err) (code : Nat) : e.hasCode code = true ↔ e = .googleapi code := by
  cases e with
  | googleapi c => simp [Err.hasCode]
  | opError oe => simp [Err.hasCode]
  | other msg => simp [Err.hasCode]

/-- C8: when the create call reports a conflict (HTTP 409) `InsertTemplate`
returns normally and makes no status fetch, whatever the fetches would answer;
any other create failure aborts, and so does an error returned by `WaitOp`;
when `WaitOp` returns `nil` the function returns normally. -/
theorem InsertTemplate_spec (insert : InstanceTemplate → Except Err Operation)
    (template : InstanceTemplate) (script : List (Except Err Operation)) :
    (insert template = .error (.googleapi StatusConflict) →
      InsertTemplate insert template script = some (.ok (), [])) ∧
    (∀ e, insert template = .error e → e ≠ .googleapi StatusConflict →
      InsertTemplate insert template script = some (.error (.insertTemplate e), [])) ∧
    (∀ op e gets, insert template = .ok op → WaitOp op script = some (some e, gets) →
      InsertTemplate insert template script = some (.error (.insertTemplateOp e), gets)) ∧
    (∀ op gets, insert template = .ok op → WaitOp op script = some (none, gets) →
      InsertTemplate insert template script = some (.ok (), gets)) := by
  refine ⟨?_, ?_, ?_, ?_⟩
  · intro h
    simp [InsertTemplate, h, Err.hasCode]
  · intro e h hne
    have hc : e.hasCode StatusConflict = false := by
      rw [Bool.eq_false_iff]
      exact fun hc => hne ((hasCode_iff e StatusConflict).mp hc)
    simp [InsertTemplate, h, hc]
  · intro op e gets h hw
    simp [InsertTemplate, h, hw]
  · intro op gets h hw
    simp [InsertTemplate, h, hw]

theorem InsertTemplate_spec_witness :
    InsertTemplate (fun _ => .error (.googleapi 409)) exTemplate
        [.ok (exOp "RUNNING"), .ok (exOp "DONE")] = some (.ok (), []) ∧
    InsertTemplate (fun _ => .error (.googleapi 403)) exTemplate [] =
        some (.error (.insertTemplate (.googleapi 403)), []) ∧
    InsertTemplate (fun _ => .ok (exOp "PENDING")) exTemplate [.ok exFailedOp] =
        some (.error (.insertTemplateOp (.opError exOperationError)),
          [.globalOp "operation-1".toList]) :=
  ⟨(InsertTemplate_spec (fun _ => .error (.googleapi 409)) exTemplate
      [.ok (exOp "RUNNING"), .ok (exOp "DONE")]).1 rfl,
   (InsertTemplate_spec (fun _ => .error (.googleapi 403)) exTemplate []).2.1 _ rfl
      (by decide),
   (InsertTemplate_spec (fun _ => .ok (exOp "PENDING")) exTemplate
      [.ok exFailedOp]).2.2.1 _ _ _ rfl rfl⟩

/-! ## Zone lookup -/

theorem foldl_append_flatten (pages : List (List GoString)) (acc : List GoString) :
    pages.foldl (fun zones items => zones ++ items) acc = acc ++ pages.flatten := by
  induction pages generalizing acc with
  | nil => simp
  | cons x xs ih => simp [ih]

theorem GetZone_eq_probe (pages : List (List GoString))
    (get : GoString → Except Err InstanceGroup) (group : GoString) :
    GetZone (.ok pages) get group =
      GetZone.probe get group pages.flatten pages.flatten := by
  simp [GetZone, foldl_append_flatten]

theorem probe_skip (get : GoString → Except Err InstanceGroup) (group : GoString)
    (zones pre rest : List GoString)
    (hpre : ∀ y ∈ pre, get y = .error (.googleapi StatusNotFound) ∨
      ∃ ig, get y = .ok ig ∧ ig.Name ≠ group) :
    GetZone.probe get group zones (pre ++ rest) = GetZone.probe get group zones rest := by
  induction pre with
  | nil => rfl
  | cons y ys ih =>
    have ih1 := ih fun w hw => hpre w (List.mem_cons_of_mem _ hw)
    rcases hpre y (List.mem_cons_self _ _) with h | ⟨ig, h, hne⟩
    · rw [List.cons_append, GetZone.probe, h]
      simpa [Err.hasCode] using ih1
    · rw [List.cons_append, GetZone.probe, h]
      simpa [hne] using ih1

/-- C7 (amended): `GetZone` returns the first zone whose lookup succeeds with
a group of the requested name, provided every zone before it answers not-found
(or returns a group of another name, which is skipped in the same way); a
lookup failure other than not-found at that place aborts; an empty zone list
gives the compute-disabled failure; a non-empty list in which every zone is
skipped gives the group-not-found failure. -/
theorem GetZone_spec (pages : List (List GoString))
    (get : GoString → Except Err InstanceGroup) (group : GoString) :
    (∀ (pre post : List GoString) (z : GoString) (ig : InstanceGroup),
      pages.flatten = pre ++ z :: post →
      (∀ y ∈ pre, get y = .error (.googleapi StatusNotFound) ∨
        ∃ ig, get y = .ok ig ∧ ig.Name ≠ group) →
      get z = .ok ig → ig.Name = group →
      GetZone (.ok pages) get group = .ok z) ∧
    (∀ (pre post : List GoString) (z : GoString) (e : Err),
      pages.flatten = pre ++ z :: post →
      (∀ y ∈ pre, get y = .error (.googleapi StatusNotFound) ∨
        ∃ ig, get y = .ok ig ∧ ig.Name ≠ group) →
      get z = .error e → e ≠ .googleapi StatusNotFound →
      GetZone (.ok pages) get group = .error (.getZoneOfGroup e)) ∧
    (pages.flatten = [] → GetZone (.ok pages) get group = .error .computeNotEnabled) ∧
    (pages.flatten ≠ [] →
      (∀ y ∈ pages.flatten, get y = .error (.googleapi StatusNotFound) ∨
        ∃ ig, get y = .ok ig ∧ ig.Name ≠ group) →
      GetZone (.ok pages) get group = .error .groupNotFound) := by
  refine ⟨?_, ?_, ?_, ?_⟩
  · intro pre post z ig hz hpre hg hn
    rw [GetZone_eq_probe]
    rw [hz, probe_skip get group _ pre (z :: post) hpre, GetZone.probe, hg]
    simp [hn]
  · intro pre post z e hz hpre hg hne
    have hc : e.hasCode StatusNotFound = false := by
      rw [Bool.eq_false_iff]
      exact fun hc => hne ((hasCode_iff e StatusNotFound).mp hc)
    rw [GetZone_eq_probe]
    rw [hz, probe_skip get group _ pre (z :: post) hpre, GetZone.probe, hg]
    simp [hc]
  · intro he
    rw [GetZone_eq_probe, he]
    rfl
  · intro hne hall
    rw [GetZone_eq_probe]
    have h := probe_skip get group pages.flatten pages.flatten [] hall
    rw [List.append_nil] at h
    have hl : ¬ pages.flatten.length = 0 := fun h0 => hne (List.length_eq_zero.mp h0)
    rw [h, GetZone.probe, if_neg hl]

theorem GetZone_spec_witness :
    GetZone (.ok [["z0".toList, "z1".toList], ["z2".toList, "z3".toList]]) exGet
        "web-group".toList = .ok "z2".toList ∧
    GetZone (.ok [["z0".toList], ["z3".toList]]) exGet "web-group".toList =
        .error .groupNotFound := by
  constructor
  · refine (GetZone_spec [["z0".toList, "z1".toList], ["z2".toList, "z3".toList]] exGet
      "web-group".toList).1 ["z0".toList, "z1".toList] ["z3".toList] "z2".toList
      { Name := "web-group".toList } rfl ?_ rfl rfl
    intro y hy
    simp only [List.mem_cons, List.mem_singleton, List.not_mem_nil, or_false] at hy
    rcases hy with rfl | rfl
    · exact Or.inl rfl
    · exact Or.inr ⟨{ Name := "other".toList }, rfl, by decide⟩
  · refine (GetZone_spec [["z0".toList], ["z3".toList]] exGet
      "web-group".toList).2.2.2 (by decide) ?_
    intro y hy
    have hy1 : y = "z0".toList ∨ y = "z3".toList := by simpa using hy
    rcases hy1 with rfl | rfl
    · exact Or.inl rfl
    · exact Or.inl rfl

/-- C7 as stated fails: the lookup in zone `z1` succeeds and no zone comes
before it, yet `GetZone` does not return `z1`, because the group found there
has another name; it goes on and returns `z2`. -/
theorem GetZone_first_success_counterexample :
    (∃ ig, exGet "z1".toList = .ok ig) ∧
    GetZone (.ok [["z1".toList, "z2".toList]]) exGet "web-group".toList = .ok "z2".toList ∧
    "z2".toList ≠ "z1".toList :=
  ⟨⟨{ Name := "other".toList }, rfl⟩, rfl, by decide⟩

end GroupDeploy
